import Mathlib

/-!
Verification development for the pygdrive filesystem-semantics layer
(`pygdrive/files.py` and `pygdrive/exceptions.py`).

The remote Google Drive store is modelled as a list of object records plus
the canonical root record; the transport may be told to fail a listing or a
delete call with a given HTTP status code, which is how the error-mapping
behaviour of `_stat` and `delete` is exercised.  Mutating operations return
the updated store together with the list of remote mutation requests they
issued, so that "no mutation was issued" and "the remote state is unchanged"
are directly statable.
-/

namespace PyGDrive

/-- The path separator character, `os.path.sep` on POSIX. -/
def pathSep : Char := '/'

/-- `FilesAPIWrapper.FOLDER_MIME_TYPE`. -/
def FOLDER_MIME_TYPE : String := "application/vnd.google-apps.folder"

/-- One object record as returned by the remote store.  The `parents` field
is `none` when the record carries no `parents` key at all (unparented /
shared items), and `some l` when the key is present with list `l`. -/
structure ObjectRecord where
  id : String
  kind : String := "drive#file"
  mimeType : String := ""
  name : String
  parents : Option (List String) := none
deriving DecidableEq, Repr

/-- The remote store.  `root` is the record served for
`files().get(fileId='root')`.  `failure` (resp. `deleteFailure`), when set,
makes every `files().list` (resp. `files().delete`) transport call fail with
the given HTTP status code and message, modelling `HttpError`. -/
structure Remote where
  root : ObjectRecord
  objects : List ObjectRecord
  nextId : Nat := 0
  failure : Option (Nat × String) := none
  deleteFailure : Option (Nat × String) := none
deriving DecidableEq, Repr

/-- The query expression built by `_stat`: an AND of the optional folder
mime-type clause, the `name='N'` clause and the optional `'P' in parents`
clause, evaluated on one record by the (faithful) server. -/
def queryMatch (folderQuery : Bool) (name : String) (parent_id : Option String)
    (r : ObjectRecord) : Bool :=
  (!folderQuery || r.mimeType == FOLDER_MIME_TYPE) &&
  r.name == name &&
  (match parent_id with
   | none => true
   | some p => (r.parents.getD []).contains p)

/-- One `files().list` transport call: either the injected `HttpError`, or
the records matching the query, in store order. -/
def Remote.listFiles (d : Remote) (folderQuery : Bool) (name : String)
    (parent_id : Option String) : Except (Nat × String) (List ObjectRecord) :=
  match d.failure with
  | some e => .error e
  | none => .ok (d.objects.filter (queryMatch folderQuery name parent_id))

/-- The error taxonomy.  `notFound`, `fileExists` and `permission` model the
three `OSError` subclasses of `pygdrive/exceptions.py` with their
errno/strerror/filename triple; `http` is an `HttpError` re-raised
unchanged; `keyError`/`indexError` model Python's untyped lookup errors. -/
inductive DriveErr where
  | notFound (errno : Nat) (strerror : String) (filename : String)
  | fileExists (errno : Nat) (strerror : String) (filename : String)
  | permission (errno : Nat) (strerror : String) (filename : String)
  | http (code : Nat) (msg : String)
  | keyError (key : String)
  | indexError (idx : Nat)
deriving DecidableEq, Repr

/-- Python truthiness default for numbers: `eno or DEFAULT_ERRNO`. -/
def orInt (v : Option Nat) (dflt : Nat) : Nat :=
  match v with
  | some n => if n = 0 then dflt else n
  | none => dflt

/-- Python truthiness default for strings: `msg or DEFAULT_STRERROR`. -/
def orStr (v : Option String) (dflt : String) : String :=
  match v with
  | some s => if s = "" then dflt else s
  | none => dflt

/-- `GoogleDriveFileNotFoundError(eno, msg, filename)`:
errno defaults to `errno.ENOENT = 2`, strerror to `os.strerror(2)`. -/
def mkNotFound (eno : Option Nat) (msg : Option String) (filename : String) : DriveErr :=
  .notFound (orInt eno 2) (orStr msg "No such file or directory") filename

/-- `GoogleDriveFileExistsError(eno, msg, filename)`:
errno defaults to `errno.EEXIST = 17`, strerror to `os.strerror(17)`. -/
def mkExists (eno : Option Nat) (msg : Option String) (filename : String) : DriveErr :=
  .fileExists (orInt eno 17) (orStr msg "File exists") filename

/-- `GoogleDrivePermissionError(eno, msg, filename)`:
errno defaults to `errno.EPERM = 1`, strerror to `os.strerror(1)`. -/
def mkPermission (eno : Option Nat) (msg : Option String) (filename : String) : DriveErr :=
  .permission (orInt eno 1) (orStr msg "Operation not permitted") filename

instance instDecEqExcept {ε α : Type} [DecidableEq ε] [DecidableEq α] :
    DecidableEq (Except ε α) := fun x y =>
  match x, y with
  | .ok a, .ok b =>
    if h : a = b then .isTrue (by rw [h]) else .isFalse (fun hc => h (Except.ok.inj hc))
  | .error a, .error b =>
    if h : a = b then .isTrue (by rw [h]) else .isFalse (fun hc => h (Except.error.inj hc))
  | .ok _, .error _ => .isFalse (fun hc => Except.noConfusion hc)
  | .error _, .ok _ => .isFalse (fun hc => Except.noConfusion hc)

/-- Python truthiness of an optional string argument: `None` and `''` are
both falsy (`if parent_id:` / `if not parent_id:`). -/
def optTruthy : Option String → Option String
  | none => none
  | some s => if s = "" then none else some s

/-- A remote mutation request, as issued by the wrapper. -/
inductive MutCall where
  | createObj (name : String) (parents : List String) (mimeType : String)
  | updateObj (fileId : String) (newName : Option String)
      (addParents : Option String) (removeParents : Option (List String))
  | copyObj (fileId : String) (parents : List String)
  | deleteObj (fileId : String)
deriving DecidableEq, Repr

/-- `RE_PATH_DUP_SLASH.sub('\1\2', path)`: the left-to-right scan of the
regex `([^/])/+$|(/)/+`.  At each position the first alternative (a
non-separator followed by separators running to the end of the string)
replaces the whole match by that character; otherwise a pair of adjacent
separators is collapsed (dropping the first keeps one separator per run,
exactly as the greedy `(/)/+` match followed by continuing after it). -/
def normScan : List Char → List Char
  | [] => []
  | [c] => [c]
  | c1 :: c2 :: rest =>
    if c1 != pathSep && c2 == pathSep && rest.all (fun c => c == pathSep) then
      [c1]
    else if c1 == pathSep && c2 == pathSep then
      normScan (c2 :: rest)
    else
      c1 :: normScan (c2 :: rest)

/-- `os.path.split(p)` (posixpath): split after the last separator; the
head keeps its trailing separators stripped unless it is empty or consists
only of separators. -/
def splitPathChars (p : List Char) : List Char × List Char :=
  let r := p.reverse
  let tailR := r.takeWhile (fun c => c != pathSep)
  let headR := r.drop tailR.length
  let head0 := headR.reverse
  let head :=
    if head0 != [] && !(head0.all (fun c => c == pathSep)) then
      (headR.dropWhile (fun c => c == pathSep)).reverse
    else head0
  (head, tailR.reverse)

/-- The innermost anchor produced by `rsplit_path`: the `stat_params`
dictionary `{'name': …}` or `{'name': …, 'parent_id': 'root'}`. -/
structure StatParams where
  name : String
  parent_id : Option String := none
deriving DecidableEq, Repr

/-- The loop of `rsplit_path`, with the number of remaining iterations made
explicit as fuel (the head returned by `os.path.split` is strictly shorter
than its input whenever the tail is non-empty, so `p.length + 1` steps
always suffice; the fuel-exhaustion value is never reached from
`rsplit_path`). -/
def rsplitAuxF : Nat → List Char → List String → StatParams × List String
  | 0, p, acc => ({ name := String.mk p }, acc)
  | fuel + 1, p, acc =>
    let ht := splitPathChars p
    if ht.2.isEmpty then
      ({ name := String.mk ht.1 }, acc)
    else if ht.1 = [pathSep] then
      ({ name := String.mk ht.2, parent_id := some "root" }, acc)
    else if ht.1.isEmpty then
      ({ name := String.mk ht.2 }, acc)
    else
      rsplitAuxF fuel ht.1 (acc ++ [String.mk ht.2])

/-- `FilesAPIWrapper.rsplit_path`: normalize duplicate separators, then
repeatedly split off the final segment, pushing consumed segments onto the
ancestor list (Python appends at the end and later pops from the end). -/
def rsplit_path (path : String) : StatParams × List String :=
  let q := normScan path.data
  rsplitAuxF (q.length + 1) q []

/-- `FilesAPIWrapper.FIELDS_DEFAULTS` (a Python set; modelled as the list
of its members). -/
def FIELDS_DEFAULTS : List String := ["id", "kind", "mimeType", "name", "parents"]

/-- Python `s.split(',')`: split on every comma, keeping empty pieces
(`''.split(',') == ['']`). -/
def splitCommaAux : List Char → List Char → List String
  | cur, [] => [String.mk cur.reverse]
  | cur, c :: rest =>
    if c = ',' then String.mk cur.reverse :: splitCommaAux [] rest
    else splitCommaAux (c :: cur) rest

/-- Python `s.split(',')` for a whole string. -/
def splitComma (s : String) : List String := splitCommaAux [] s.data

/-- `FilesAPIWrapper.build_fields_param`:
`','.join(set((fields or 'id').split(',')) | FIELDS_DEFAULTS)`.
Python joins the union set in unspecified order, so the projection is
modelled at the set level: the list of requested names, membership in which
is exactly membership in the union set. -/
def build_fields_param (fields : Option String) : List String :=
  splitComma (orStr fields "id") ++ FIELDS_DEFAULTS

/-- `FilesAPIWrapper._stat(name, parent_id, fields, q)`: single-segment
resolution.  `name == '/'` is a direct `files().get(fileId='root')`; an
empty name is an immediate not-found; otherwise one `files().list` call is
made (404 mapped to not-found with the code as errno and the name as
filename, other codes re-raised), and when no truthy `parent_id` was
supplied every result that does carry a `parents` field is discarded; the
first surviving result wins.  The fields projection does not change which
records the model returns (records are complete snapshots). -/
def statSingle (d : Remote) (name : String) (parent_id : Option String)
    (fields : Option String) (folderQuery : Bool) : Except DriveErr ObjectRecord :=
  if name = "/" then .ok d.root
  else if name = "" then .error (mkNotFound none none name)
  else
    match d.listFiles folderQuery name (optTruthy parent_id) with
    | .error (code, msg) =>
      if code = 404 then .error (mkNotFound (some code) none name)
      else .error (.http code msg)
    | .ok items =>
      let items2 :=
        match optTruthy parent_id with
        | none => items.filter (fun r => r.parents.isNone)
        | some _ => items
      match items2 with
      | [] => .error (mkNotFound none none name)
      | it :: _ => .ok it

/-- The walk of `FilesAPIWrapper.stat`: while ancestors remain, resolve the
current anchor restricted to folders, then advance to
`{name: rest.pop(), parent_id: stat['id']}`; the final hop uses the
caller's fields and no folder filter.  Python pops from the end of the
ancestor list, so the walk consumes the reversed list from the front.
(The `if rest:` block after the `while` loop in the source is unreachable,
since the loop only exits once `rest` is empty.) -/
def statWalkR (d : Remote) (name : String) (parent_id : Option String)
    (restR : List String) (fields : Option String) : Except DriveErr ObjectRecord :=
  match restR with
  | [] => statSingle d name parent_id fields false
  | nxt :: rs =>
    match statSingle d name parent_id none true with
    | .error e => .error e
    | .ok st => statWalkR d nxt (some st.id) rs fields

/-- `FilesAPIWrapper.stat(path, fields)`: split the path, walk, and re-tag
any `GoogleDriveFileNotFoundError` with the original full path as its
filename before re-raising. -/
def stat (d : Remote) (path : String) (fields : Option String) :
    Except DriveErr ObjectRecord :=
  let sr := rsplit_path path
  match statWalkR d sr.1.name sr.1.parent_id sr.2.reverse fields with
  | .error (.notFound e s _) => .error (.notFound e s path)
  | r => r

/-- An observable event of the `iter` generator: one `files().list` fetch
carrying the page token it sends, or one yielded item. -/
inductive IterEv where
  | fetch (pageToken : Nat)
  | yield (r : ObjectRecord)
deriving DecidableEq, Repr

/-- The pagination loop of `FilesAPIWrapper.iter` (lines issuing
`files().list`, yielding `response['files']`, and re-requesting with
`response['nextPageToken']` until a response carries no token), run against
a server whose successive responses are the given pages: the response for
the current token holds that page and carries a continuation token exactly
when further pages remain.  Tokens are modelled as page indices since the
client passes them back verbatim. -/
def iterAux : List (List ObjectRecord) → Nat → List IterEv
  | [], tok => [.fetch tok]
  | [pg], tok => .fetch tok :: pg.map .yield
  | pg :: pg2 :: rest, tok =>
    .fetch tok :: pg.map .yield ++ iterAux (pg2 :: rest) (tok + 1)

/-- The full event trace of one `iter` run (the first fetch always
happens, with no page token). -/
def iterEvents (pages : List (List ObjectRecord)) : List IterEv :=
  iterAux pages 0

/-- The sequence of records actually yielded in a trace. -/
def iterYields : List IterEv → List ObjectRecord
  | [] => []
  | .yield r :: rest => r :: iterYields rest
  | .fetch _ :: rest => iterYields rest

/-- `b.startswith('/')`. -/
def startsWithSep (s : String) : Bool :=
  match s.data with
  | [] => false
  | c :: _ => c == pathSep

/-- `a.endswith('/')`. -/
def endsWithSep (s : String) : Bool :=
  match s.data.reverse with
  | [] => false
  | c :: _ => c == pathSep

/-- `os.path.join(a, b)` (posixpath, two arguments). -/
def pathJoin (a b : String) : String :=
  if startsWithSep b then b
  else if a = "" || endsWithSep a then a ++ b
  else a ++ "/" ++ b

/-- The fresh id the server assigns to the `n`-th object created in a run. -/
def freshId (n : Nat) : String := "created" ++ toString n

/-- The folder record materialized by a `files().create` call issued by
`_mkdir`. -/
def folderRec (nid : Nat) (name pid : String) : ObjectRecord :=
  { id := freshId nid, kind := "drive#file", mimeType := FOLDER_MIME_TYPE,
    name := name, parents := some [pid] }

/-- `FilesAPIWrapper._mkdir(name, parent_id)`: refuse a falsy parent id
with `GoogleDriveFileNotFoundError` (to avoid duplicating same-named
folders), otherwise create a folder object under the parent.  Returns the
result, the updated store, and the mutation requests issued. -/
def mkdirOp (d : Remote) (name : String) (parent_id : Option String) :
    Except DriveErr ObjectRecord × Remote × List MutCall :=
  match optTruthy parent_id with
  | none => (.error (mkNotFound none none name), d, [])
  | some pid =>
    let r := folderRec d.nextId name pid
    (.ok r,
     { d with objects := d.objects ++ [r], nextId := d.nextId + 1 },
     [.createObj name [pid] FOLDER_MIME_TYPE])

/-- One step of `get_or_create_folder`: try `_stat` (folder-filtered on
intermediate hops, unfiltered on the final hop) and fall back to `_mkdir`
on `GoogleDriveFileNotFoundError`; any other error propagates. -/
def gocfStep (d : Remote) (name : String) (parent_id : Option String)
    (folderQuery : Bool) : Except DriveErr ObjectRecord × Remote × List MutCall :=
  match statSingle d name parent_id none folderQuery with
  | .ok st => (.ok st, d, [])
  | .error (.notFound _ _ _) => mkdirOp d name parent_id
  | .error e => (.error e, d, [])

/-- The walk of `get_or_create_folder`, on the reversed ancestor list
(Python pops from the end); same shape as the `stat` walk, with `_mkdir`
as the not-found fallback at every hop. -/
def gocfLoopR (d : Remote) (name : String) (parent_id : Option String)
    (restR : List String) : Except DriveErr ObjectRecord × Remote × List MutCall :=
  match restR with
  | [] => gocfStep d name parent_id false
  | nxt :: rs =>
    match gocfStep d name parent_id true with
    | (.ok st, d2, log2) =>
      let r := gocfLoopR d2 nxt (some st.id) rs
      (r.1, r.2.1, log2 ++ r.2.2)
    | (.error e, d2, log2) => (.error e, d2, log2)

/-- `FilesAPIWrapper.get_or_create_folder(path)`. -/
def get_or_create_folder (d : Remote) (path : String) :
    Except DriveErr ObjectRecord × Remote × List MutCall :=
  let sr := rsplit_path path
  gocfLoopR d sr.1.name sr.1.parent_id sr.2.reverse

/-- Server application of a `files().update`/`files().copy` response: the
record with the given id, transformed. -/
def Remote.applyUpdate (d : Remote) (fid : String) (f : ObjectRecord → ObjectRecord) :
    ObjectRecord × Remote :=
  (((d.objects.find? (fun r => r.id == fid)).map f).getD { id := fid, name := "" },
   { d with objects := d.objects.map (fun r => if r.id == fid then f r else r) })

/-- `FilesAPIWrapper.delete(path)`: resolve, then issue `files().delete`;
a 403 transport failure is mapped to `GoogleDrivePermissionError` carrying
the remote message and the caller's path, any other failure is re-raised. -/
def delete (d : Remote) (path : String) :
    Except DriveErr Unit × Remote × List MutCall :=
  match stat d path none with
  | .error e => (.error e, d, [])
  | .ok st =>
    match d.deleteFailure with
    | some (code, msg) =>
      if code = 403 then
        (.error (mkPermission (some code) (some msg) path), d, [.deleteObj st.id])
      else
        (.error (.http code msg), d, [.deleteObj st.id])
    | none =>
      (.ok (), { d with objects := d.objects.filter (fun r => r.id != st.id) },
       [.deleteObj st.id])

/-- `FilesAPIWrapper.rename(path, dst_name, fields)`: resolve the source,
index `src_stat['parents'][0]` (a `KeyError` when the record has no
`parents` field, an `IndexError` when it is empty), check for a sibling of
the destination name, and only then issue the update. -/
def rename (d : Remote) (path dst_name : String) (fields : Option String) :
    Except DriveErr ObjectRecord × Remote × List MutCall :=
  match stat d path none with
  | .error e => (.error e, d, [])
  | .ok src =>
    match src.parents with
    | none => (.error (.keyError "parents"), d, [])
    | some ps =>
      match ps with
      | [] => (.error (.indexError 0), d, [])
      | p0 :: _ =>
        match statSingle d dst_name (some p0) none false with
        | .ok _ =>
          (.error (mkExists none none
             (pathJoin (String.mk (splitPathChars path.data).1) dst_name)), d, [])
        | .error (.notFound _ _ _) =>
          let ur := d.applyUpdate src.id (fun r => { r with name := dst_name })
          (.ok ur.1, ur.2, [.updateObj src.id (some dst_name) none none])
        | .error e => (.error e, d, [])

/-- `FilesAPIWrapper.move(path, dst_path, fields)`: resolve source and
destination, fail with `GoogleDriveFileExistsError` if the source's name
already resolves under the destination (which also rejects moving into the
object's own folder), then issue the update with
`addParents=dst, removeParents=','.join(src_stat['parents'])` — the
`parents` lookup raising `KeyError` for an unparented source. -/
def move (d : Remote) (path dst_path : String) (fields : Option String) :
    Except DriveErr ObjectRecord × Remote × List MutCall :=
  match stat d path none with
  | .error e => (.error e, d, [])
  | .ok src =>
    match stat d dst_path none with
    | .error e => (.error e, d, [])
    | .ok dst =>
      match statSingle d src.name (some dst.id) none false with
      | .ok _ =>
        (.error (mkExists none none
           (pathJoin dst_path (String.mk (splitPathChars path.data).2))), d, [])
      | .error (.notFound _ _ _) =>
        match src.parents with
        | none => (.error (.keyError "parents"), d, [])
        | some ps =>
          let ur := d.applyUpdate src.id (fun r =>
            let newParents := (r.parents.getD []).filter (fun q => !(ps.contains q)) ++ [dst.id]
            { r with parents := some newParents })
          (.ok ur.1, ur.2, [.updateObj src.id none (some dst.id) (some ps)])
      | .error e => (.error e, d, [])

/-- `FilesAPIWrapper.copy(path, dst_path, fields)`: same pre-checks as
`move`, then `files().copy` creating a fresh object whose only parent is
the destination. -/
def copy (d : Remote) (path dst_path : String) (fields : Option String) :
    Except DriveErr ObjectRecord × Remote × List MutCall :=
  match stat d path none with
  | .error e => (.error e, d, [])
  | .ok src =>
    match stat d dst_path none with
    | .error e => (.error e, d, [])
    | .ok dst =>
      match statSingle d src.name (some dst.id) none false with
      | .ok _ =>
        (.error (mkExists none none
           (pathJoin dst_path (String.mk (splitPathChars path.data).2))), d, [])
      | .error (.notFound _ _ _) =>
        let c : ObjectRecord :=
          { id := freshId d.nextId, kind := src.kind, mimeType := src.mimeType,
            name := src.name, parents := some [dst.id] }
        (.ok c,
         { d with objects := d.objects ++ [c], nextId := d.nextId + 1 },
         [.copyObj src.id [dst.id]])
      | .error e => (.error e, d, [])

/-! Helper lemmas about single-segment resolution. -/

/-- The post-filtered result list a faithful (non-failing) server leaves
`_stat` to choose from: the query matches, additionally restricted to
unparented records when no truthy parent id was supplied. -/
def queryItemsL (objs : List ObjectRecord) (folderQuery : Bool) (name : String)
    (pidT : Option String) : List ObjectRecord :=
  match pidT with
  | none => (objs.filter (queryMatch folderQuery name none)).filter (fun r => r.parents.isNone)
  | some pid => objs.filter (queryMatch folderQuery name (some pid))

theorem queryItemsL_append (o1 o2 : List ObjectRecord) (q : Bool) (n : String)
    (pt : Option String) :
    queryItemsL (o1 ++ o2) q n pt = queryItemsL o1 q n pt ++ queryItemsL o2 q n pt := by
  cases pt <;> simp [queryItemsL, List.filter_append]

theorem statSingle_char (d : Remote) (n : String) (p : Option String)
    (f : Option String) (q : Bool) (hf : d.failure = none) (h1 : n ≠ "/") (h2 : n ≠ "") :
    statSingle d n p f q =
      (match queryItemsL d.objects q n (optTruthy p) with
       | [] => .error (mkNotFound none none n)
       | it :: _ => .ok it) := by
  unfold statSingle Remote.listFiles queryItemsL
  rw [hf]
  simp only [if_neg h1, if_neg h2]
  cases h : optTruthy p <;> simp <;> rfl

/-- A successful single-segment resolution is stable when the store only
grows at the end: the first query match does not change. -/
theorem statSingle_mono (d d2 : Remote) (t : List ObjectRecord) (n : String)
    (p f : Option String) (q : Bool) (r : ObjectRecord)
    (hf : d.failure = none) (hf2 : d2.failure = none) (hroot : d2.root = d.root)
    (hobj : d2.objects = d.objects ++ t)
    (h : statSingle d n p f q = .ok r) : statSingle d2 n p f q = .ok r := by
  by_cases h1 : n = "/"
  · subst h1
    unfold statSingle at h ⊢
    simp at h ⊢
    rw [hroot]
    exact h
  · by_cases h2 : n = ""
    · subst h2
      unfold statSingle at h
      simp [h1] at h
    · rw [statSingle_char d n p f q hf h1 h2] at h
      rw [statSingle_char d2 n p f q hf2 h1 h2, hobj, queryItemsL_append]
      cases hq : queryItemsL d.objects q n (optTruthy p) with
      | nil => rw [hq] at h; exact absurd h (by simp)
      | cons it l => rw [hq] at h; simp at h; subst h; simp

/-- A failed (not-found) single-segment resolution of a proper name means
the post-filtered query result list was empty. -/
theorem statSingle_miss (d : Remote) (n : String) (p f : Option String) (q : Bool)
    (a : Nat) (b c : String)
    (hf : d.failure = none) (h1 : n ≠ "/") (h2 : n ≠ "")
    (h : statSingle d n p f q = .error (.notFound a b c)) :
    queryItemsL d.objects q n (optTruthy p) = [] := by
  rw [statSingle_char d n p f q hf h1 h2] at h
  cases hq : queryItemsL d.objects q n (optTruthy p) with
  | nil => rfl
  | cons it l => rw [hq] at h; exact absurd h (by simp)

/-- After a miss with a truthy parent id, a record matching the query that
was appended right after the original store is found first by the same
query on any further-grown store. -/
theorem statSingle_after_create (d2 : Remote) (o1 t : List ObjectRecord)
    (c : ObjectRecord) (n : String) (p f2 : Option String) (pid : String) (q : Bool)
    (hf2 : d2.failure = none) (h1 : n ≠ "/") (h2 : n ≠ "")
    (hobj : d2.objects = o1 ++ c :: t)
    (hpt : optTruthy p = some pid)
    (hmiss : queryItemsL o1 q n (some pid) = [])
    (hc : queryMatch q n (some pid) c = true) :
    statSingle d2 n p f2 q = .ok c := by
  rw [statSingle_char d2 n p f2 q hf2 h1 h2, hobj, hpt]
  have : c :: t = [c] ++ t := rfl
  rw [this, ← List.append_assoc, queryItemsL_append, queryItemsL_append, hmiss]
  simp [queryItemsL, hc]

/-- Resolution of the root marker never consults the query primitive. -/
theorem statSingle_sep (d : Remote) (p f : Option String) (q : Bool) :
    statSingle d "/" p f q = .ok d.root := by
  unfold statSingle
  simp

/-- The store only grows (at the end), and the root record and injected
failure stay fixed, across one operation. -/
def Grows (d d2 : Remote) : Prop :=
  d2.root = d.root ∧ d2.failure = d.failure ∧ ∃ t, d2.objects = d.objects ++ t

theorem grows_refl (d : Remote) : Grows d d :=
  ⟨rfl, rfl, ⟨[], by simp⟩⟩

theorem grows_trans {d d2 d3 : Remote} (h1 : Grows d d2) (h2 : Grows d2 d3) :
    Grows d d3 := by
  obtain ⟨a1, b1, t1, c1⟩ := h1
  obtain ⟨a2, b2, t2, c2⟩ := h2
  exact ⟨a2.trans a1, b2.trans b1, ⟨t1 ++ t2, by rw [c2, c1, List.append_assoc]⟩⟩

theorem gocfStep_growth (d : Remote) (n : String) (p : Option String) (q : Bool) :
    Grows d (gocfStep d n p q).2.1 := by
  unfold gocfStep
  cases statSingle d n p none q with
  | ok st => exact grows_refl d
  | error e =>
    cases e <;> try exact grows_refl d
    case notFound a b c =>
      unfold mkdirOp
      cases optTruthy p with
      | none => exact grows_refl d
      | some pid => exact ⟨rfl, rfl, ⟨[folderRec d.nextId n pid], rfl⟩⟩

theorem gocfLoopR_growth : ∀ (restR : List String) (d : Remote) (n : String)
    (p : Option String), Grows d (gocfLoopR d n p restR).2.1 := by
  intro restR
  induction restR with
  | nil => intro d n p; exact gocfStep_growth d n p false
  | cons nxt rs ih =>
    intro d n p
    have hstep := gocfStep_growth d n p true
    rcases hs : gocfStep d n p true with ⟨res, dmid, log2⟩
    rw [hs] at hstep
    cases res with
    | ok st =>
      simp only [gocfLoopR, hs]
      exact grows_trans hstep (ih dmid nxt (some st.id))
    | error e =>
      simp only [gocfLoopR, hs]
      exact hstep

/-- A materialized folder record matches the query that just missed. -/
theorem folderRec_matches (nid : Nat) (n pid : String) (q : Bool) :
    queryMatch q n (some pid) (folderRec nid n pid) = true := by
  cases q <;> simp [queryMatch, folderRec]

/-- Key induction for idempotence of `get_or_create_folder`: a second run
of the walk, started on the final store of a successful first run with the
same anchor and ancestor stack, finds every hop (whether the first run
found it or created it), returns the very same record and final store, and
issues no mutation request. -/
theorem gocfLoopR_idem : ∀ (restR : List String) (d : Remote) (n : String)
    (p : Option String) (rec : ObjectRecord) (d2 : Remote) (log : List MutCall),
    d.failure = none →
    (∀ s ∈ restR, s ≠ "") →
    (n = "" → optTruthy p = none) →
    gocfLoopR d n p restR = (.ok rec, d2, log) →
    gocfLoopR d2 n p restR = (.ok rec, d2, []) := by
  intro restR
  induction restR with
  | nil =>
    intro d n p rec d2 log hf hseg hne h
    simp only [gocfLoopR] at h ⊢
    unfold gocfStep at h ⊢
    cases hs : statSingle d n p none false with
    | ok st =>
      rw [hs] at h
      simp at h
      obtain ⟨hrec, hd2, _⟩ := h
      subst hrec
      subst hd2
      rw [hs]
    | error e =>
      rw [hs] at h
      cases e with
      | notFound a b c =>
        unfold mkdirOp at h
        cases hp : optTruthy p with
        | none => rw [hp] at h; simp at h
        | some pid =>
          rw [hp] at h
          simp at h
          obtain ⟨hrec, hd2, _⟩ := h
          have hn2 : n ≠ "" := by
            intro hn
            rw [hne hn] at hp
            exact Option.noConfusion hp
          have hn1 : n ≠ "/" := by
            intro hn
            rw [hn, statSingle_sep] at hs
            exact Except.noConfusion hs
          have hmiss := statSingle_miss d n p none false a b c hf hn1 hn2 hs
          rw [hp] at hmiss
          have hf2 : d2.failure = none := by rw [← hd2]; exact hf
          have hobj : d2.objects = d.objects ++ folderRec d.nextId n pid :: [] := by
            rw [← hd2]
          have hss2 : statSingle d2 n p none false = .ok rec := by
            rw [← hrec]
            exact statSingle_after_create d2 d.objects [] (folderRec d.nextId n pid)
              n p none pid false hf2 hn1 hn2 hobj hp hmiss
              (folderRec_matches d.nextId n pid false)
          rw [hss2]
      | fileExists a b c => simp at h
      | permission a b c => simp at h
      | http a b => simp at h
      | keyError a => simp at h
      | indexError a => simp at h
  | cons nxt rs ih =>
    intro d n p rec d2 log hf hseg hne h
    have hnxt : nxt ≠ "" := hseg nxt (by simp)
    have hseg2 : ∀ s ∈ rs, s ≠ "" := fun s hs2 => hseg s (by simp [hs2])
    rcases hstep : gocfStep d n p true with ⟨res, dmid, log2⟩
    simp only [gocfLoopR, hstep] at h
    cases res with
    | error e => simp at h
    | ok st =>
      simp at h
      obtain ⟨h1, h2, _⟩ := h
      rcases hrec : gocfLoopR dmid nxt (some st.id) rs with ⟨res3, d3, log3⟩
      rw [hrec] at h1 h2
      simp at h1 h2
      rw [h1, h2] at hrec
      have hgrow0 := gocfLoopR_growth rs dmid nxt (some st.id)
      rw [hrec] at hgrow0
      have hgrow : Grows dmid d2 := hgrow0
      obtain ⟨hgr, hgf, t, hgo⟩ := hgrow
      unfold gocfStep at hstep
      cases hs : statSingle d n p none true with
      | ok st0 =>
        rw [hs] at hstep
        simp at hstep
        obtain ⟨hst, hdmid, _⟩ := hstep
        rw [hst] at hs
        rw [← hdmid] at hgr hgf hgo hrec
        have hf2 : d2.failure = none := by rw [hgf]; exact hf
        have hss2 := statSingle_mono d d2 t n p none true st hf hf2 hgr hgo hs
        have ihres := ih d nxt (some st.id) rec d2 log3 hf hseg2
          (fun hx => absurd hx hnxt) hrec
        simp only [gocfLoopR]
        unfold gocfStep
        rw [hss2]
        simp [ihres]
      | error e =>
        rw [hs] at hstep
        cases e with
        | notFound a b c =>
          unfold mkdirOp at hstep
          cases hp : optTruthy p with
          | none => rw [hp] at hstep; simp at hstep
          | some pid =>
            rw [hp] at hstep
            simp at hstep
            obtain ⟨hst, hdmid, _⟩ := hstep
            have hn2 : n ≠ "" := by
              intro hn
              rw [hne hn] at hp
              exact Option.noConfusion hp
            have hn1 : n ≠ "/" := by
              intro hn
              rw [hn, statSingle_sep] at hs
              exact Except.noConfusion hs
            have hmiss := statSingle_miss d n p none true a b c hf hn1 hn2 hs
            rw [hp] at hmiss
            have hfmid : dmid.failure = none := by rw [← hdmid]; exact hf
            have hf2 : d2.failure = none := by rw [hgf]; exact hfmid
            have hobj : d2.objects = d.objects ++ folderRec d.nextId n pid :: t := by
              rw [hgo, ← hdmid]
              simp
            have hss2 : statSingle d2 n p none true = .ok st := by
              rw [← hst]
              exact statSingle_after_create d2 d.objects t (folderRec d.nextId n pid)
                n p none pid true hf2 hn1 hn2 hobj hp hmiss
                (folderRec_matches d.nextId n pid true)
            have ihres := ih dmid nxt (some st.id) rec d2 log3 hfmid hseg2
              (fun hx => absurd hx hnxt) hrec
            simp only [gocfLoopR]
            unfold gocfStep
            rw [hss2]
            simp [ihres]
        | fileExists a b c => simp at hstep
        | permission a b c => simp at hstep
        | http a b => simp at hstep
        | keyError a => simp at hstep
        | indexError a => simp at hstep

theorem mk_ne_empty (l : List Char) (h : l ≠ []) : String.mk l ≠ "" := by
  intro hc
  apply h
  have h2 := congrArg String.data hc
  exact h2

/-- Every ancestor segment produced by the `rsplit_path` loop is a
non-empty string, and whenever the innermost name is empty no parent id
was attached (only the whole-path-empty case produces an empty name). -/
theorem rsplitAuxF_segs : ∀ (fuel : Nat) (p : List Char) (acc : List String),
    (∀ s ∈ acc, s ≠ "") →
    (∀ s ∈ (rsplitAuxF fuel p acc).2, s ≠ "") ∧
    ((rsplitAuxF fuel p acc).1.name = "" → (rsplitAuxF fuel p acc).1.parent_id = none) := by
  intro fuel
  induction fuel with
  | zero => intro p acc hacc; exact ⟨hacc, fun _ => rfl⟩
  | succ fuel ih =>
    intro p acc hacc
    simp only [rsplitAuxF]
    by_cases h1 : (splitPathChars p).2.isEmpty = true
    · simp only [h1, if_true]
      exact ⟨hacc, by simp⟩
    · have hne : (splitPathChars p).2 ≠ [] := by
        intro hc
        rw [hc] at h1
        exact h1 rfl
      simp only [h1, if_false]
      by_cases h2 : (splitPathChars p).1 = [pathSep]
      · simp only [h2, if_true]
        exact ⟨hacc, fun hc => absurd hc (mk_ne_empty _ hne)⟩
      · simp only [h2, if_false]
        by_cases h3 : (splitPathChars p).1.isEmpty = true
        · simp only [h3, if_true]
          exact ⟨hacc, by simp⟩
        · simp only [h3, if_false]
          apply ih
          intro s hs
          rcases List.mem_append.mp hs with hs2 | hs2
          · exact hacc s hs2
          · rw [List.mem_singleton.mp hs2]
            exact mk_ne_empty _ hne

/-- C6: `get_or_create_folder` (the `ensureFolder` operation) is
idempotent: assuming no other actor touches the store between the calls
(and a transport that does not fail listings), a second call on the same
path succeeds with the very same record — in particular the same object
id — against the unchanged store, and issues no folder-creation (indeed
no) remote mutation request. -/
theorem get_or_create_folder_idempotent (d : Remote) (path : String)
    (rec : ObjectRecord) (d2 : Remote) (log : List MutCall)
    (hf : d.failure = none)
    (h : get_or_create_folder d path = (.ok rec, d2, log)) :
    get_or_create_folder d2 path = (.ok rec, d2, []) := by
  have hsegs := rsplitAuxF_segs ((normScan path.data).length + 1) (normScan path.data) []
    (by intro s hs; exact absurd hs (List.not_mem_nil s))
  unfold get_or_create_folder rsplit_path at h ⊢
  refine gocfLoopR_idem _ d _ _ rec d2 log hf ?_ ?_ h
  · intro s hs
    exact hsegs.1 s (List.mem_reverse.mp hs)
  · intro hnm
    rw [hsegs.2 hnm]
    rfl

/-- Root record used by the concrete witness stores. -/
def wRoot : ObjectRecord := { id := "root", name := "My Drive", mimeType := FOLDER_MIME_TYPE }

/-- An empty drive (no objects besides the root record). -/
def wD6 : Remote := { root := wRoot, objects := [] }

/-- The store after `get_or_create_folder wD6 "/a/b"` created `a` under
root and `b` under `a`. -/
def wD6x : Remote :=
  { root := wRoot,
    objects := [folderRec 0 "a" "root", folderRec 1 "b" "created0"],
    nextId := 2 }

/-- Witness for C6: on an empty drive, `get_or_create_folder "/a/b"`
creates two folders; the theorem then yields that the second call returns
the same record over the unchanged store with no mutation requests. -/
theorem get_or_create_folder_idempotent_witness :
    wD6.failure = none ∧
    get_or_create_folder wD6x "/a/b" = (.ok (folderRec 1 "b" "created0"), wD6x, []) :=
  ⟨rfl, get_or_create_folder_idempotent wD6 "/a/b" (folderRec 1 "b" "created0") wD6x
    [.createObj "a" ["root"] FOLDER_MIME_TYPE, .createObj "b" ["created0"] FOLDER_MIME_TYPE]
    rfl (by decide)⟩

/-! Path-normalization lemmas. -/

theorem takeWhile_all {α : Type} (p : α → Bool) :
    ∀ (l : List α), (∀ a ∈ l, p a = true) → l.takeWhile p = l := by
  intro l
  induction l with
  | nil => intro h; rfl
  | cons a t ih =>
    intro h
    rw [List.takeWhile_cons, if_pos (h a (by simp))]
    rw [ih (fun b hb => h b (by simp [hb]))]

theorem takeWhile_append_all {α : Type} (p : α → Bool) :
    ∀ (l1 l2 : List α), (∀ a ∈ l1, p a = true) →
    (l1 ++ l2).takeWhile p = l1 ++ l2.takeWhile p := by
  intro l1
  induction l1 with
  | nil => intro l2 h; rfl
  | cons a t ih =>
    intro l2 h
    rw [List.cons_append, List.takeWhile_cons, if_pos (h a (by simp))]
    rw [ih l2 (fun b hb => h b (by simp [hb]))]
    rfl

/-- The normalization scan leaves a separator-free string unchanged. -/
theorem normScan_noSep : ∀ (l : List Char), (∀ c ∈ l, c ≠ pathSep) → normScan l = l := by
  intro l
  induction l with
  | nil => intro h; rfl
  | cons c1 rest ih =>
    intro h
    cases rest with
    | nil => rfl
    | cons c2 rest2 =>
      have hc1 : c1 ≠ pathSep := h c1 (by simp)
      have hc2 : c2 ≠ pathSep := h c2 (by simp)
      have hr := ih (fun c hc => h c (List.mem_cons_of_mem c1 hc))
      simp only [normScan]
      rw [if_neg (by simp [hc2]), if_neg (by simp [hc1]), hr]

/-- C3 core: a run of separators normalizes to the single separator. -/
theorem normScan_seps : ∀ (n : Nat), 1 ≤ n →
    normScan (List.replicate n pathSep) = [pathSep] := by
  intro n
  induction n with
  | zero => intro h; exact absurd h (by simp)
  | succ m ih =>
    intro _
    cases hm : m with
    | zero => rfl
    | succ k =>
      have h1 := ih (by rw [hm]; exact Nat.succ_le_succ (Nat.zero_le k))
      rw [hm] at h1
      rw [List.replicate_succ, List.replicate_succ]
      simp only [normScan]
      rw [if_neg (by simp), if_pos (by simp)]
      rw [← List.replicate_succ, h1]

/-- `os.path.split` of a separator-free string: empty head, whole tail. -/
theorem splitPath_noSep (p : List Char) (h : ∀ c ∈ p, c ≠ pathSep) :
    splitPathChars p = ([], p) := by
  simp only [splitPathChars]
  have h1 : p.reverse.takeWhile (fun c => c != pathSep) = p.reverse := by
    apply takeWhile_all
    intro a ha
    simp [h a (List.mem_reverse.mp ha)]
  rw [h1]
  simp

/-- `os.path.split` of a separator then a separator-free string. -/
theorem splitPath_rooted (p : List Char) (h : ∀ c ∈ p, c ≠ pathSep) :
    splitPathChars (pathSep :: p) = ([pathSep], p) := by
  simp only [splitPathChars]
  have h1 : (pathSep :: p).reverse = p.reverse ++ [pathSep] := by simp
  rw [h1]
  have h2 : (p.reverse ++ [pathSep]).takeWhile (fun c => c != pathSep) = p.reverse := by
    rw [takeWhile_append_all (fun c => c != pathSep) p.reverse [pathSep]
      (fun a ha => by simp [h a (List.mem_reverse.mp ha)])]
    simp [List.takeWhile]
  rw [h2]
  have h3 : (p.reverse ++ [pathSep]).drop p.reverse.length = [pathSep] := by
    rw [List.drop_left]
  rw [h3]
  simp

/-- `rsplit_path` of a non-empty separator-free path: an unparented
top-level anchor with an empty ancestor stack. -/
theorem rsplit_single (s : String) (hne : s.data ≠ [])
    (h : ∀ c ∈ s.data, c ≠ pathSep) :
    rsplit_path s = ({ name := s, parent_id := none }, []) := by
  unfold rsplit_path
  rw [normScan_noSep s.data h]
  simp only [rsplitAuxF]
  rw [splitPath_noSep s.data h]
  have h1 : (([] : List Char), s.data).2.isEmpty = false := by
    cases hd : s.data with
    | nil => exact absurd hd hne
    | cons a t => rfl
  rw [if_neg (by simp [h1]), if_neg (by simp), if_pos (by simp)]

/-- `rsplit_path` of a separator followed by a non-empty separator-free
name: a root-parented anchor with an empty ancestor stack. -/
theorem rsplit_rooted (s : String) (hne : s.data ≠ [])
    (h : ∀ c ∈ s.data, c ≠ pathSep) :
    rsplit_path ("/" ++ s) = ({ name := s, parent_id := some "root" }, []) := by
  unfold rsplit_path
  have hd : ("/" ++ s).data = pathSep :: s.data := by
    rw [String.data_append]
    rfl
  rw [hd]
  have hn : normScan (pathSep :: s.data) = pathSep :: s.data := by
    cases hsd : s.data with
    | nil => exact absurd hsd hne
    | cons c t =>
      have hc : c ≠ pathSep := h c (by rw [hsd]; simp)
      simp only [normScan]
      rw [if_neg (by simp), if_neg (by simp [hc])]
      have := normScan_noSep (c :: t) (fun x hx => h x (by rw [hsd]; exact hx))
      rw [this]
  rw [hn]
  simp only [rsplitAuxF]
  rw [splitPath_rooted s.data h]
  have h1 : (([pathSep] : List Char), s.data).2.isEmpty = false := by
    cases hd2 : s.data with
    | nil => exact absurd hd2 hne
    | cons a t => rfl
  rw [if_neg (by simp [h1]), if_pos rfl]

/-- If a one-hop path resolution succeeds, the single-segment resolver
succeeded with the same record. -/
theorem stat_ok_elim (d : Remote) (path : String) (fields : Option String)
    (r : ObjectRecord) (sp : StatParams) (hsp : rsplit_path path = (sp, []))
    (hok : stat d path fields = .ok r) :
    statSingle d sp.name sp.parent_id fields false = .ok r := by
  simp only [stat] at hok
  rw [hsp] at hok
  simp only [List.reverse_nil, statWalkR] at hok
  cases hs : statSingle d sp.name sp.parent_id fields false with
  | ok r2 =>
    rw [hs] at hok
    simp at hok
    rw [hok]
  | error e =>
    rw [hs] at hok
    cases e <;> simp at hok

theorem queryItemsL_none_head (objs : List ObjectRecord) (q : Bool) (n : String)
    (r : ObjectRecord) (l : List ObjectRecord)
    (h : queryItemsL objs q n none = r :: l) : r.parents = none := by
  have hm : r ∈ queryItemsL objs q n none := by rw [h]; simp
  simp only [queryItemsL] at hm
  have h2 := (List.mem_filter.mp hm).2
  simpa using h2

theorem queryItemsL_some_head (objs : List ObjectRecord) (q : Bool) (n : String)
    (pid : String) (r : ObjectRecord) (l : List ObjectRecord)
    (h : queryItemsL objs q n (some pid) = r :: l) :
    queryMatch q n (some pid) r = true := by
  have hm : r ∈ queryItemsL objs q n (some pid) := by rw [h]; simp
  simp only [queryItemsL] at hm
  exact (List.mem_filter.mp hm).2

theorem queryMatch_parent (q : Bool) (n : String) (pid : String) (r : ObjectRecord)
    (h : queryMatch q n (some pid) r = true) :
    ∃ ps, r.parents = some ps ∧ ps.contains pid = true := by
  simp only [queryMatch, Bool.and_eq_true] at h
  obtain ⟨⟨_, _⟩, h3⟩ := h
  cases hp : r.parents with
  | none => rw [hp] at h3; simp at h3
  | some ps => rw [hp] at h3; exact ⟨ps, rfl, by simpa using h3⟩

/-- `_stat` of the empty name is an immediate not-found with the defaulted
errno/strerror. -/
theorem statSingle_empty (d : Remote) (p f : Option String) (q : Bool) :
    statSingle d "" p f q = .error (.notFound 2 "No such file or directory" "") := by
  unfold statSingle
  rw [if_neg (by decide), if_pos rfl]
  rfl

/-- C1: with a non-failing transport, resolving a bare single-segment name
only ever returns an unparented record (every query result that does carry
a `parents` field is discarded before choosing a match), while resolving
`"/name"` queries members of the parent `root` and only ever returns a
record whose parents contain `root`; hence an object carrying parent
references (such as one created under root) never satisfies the bare
lookup, and an unparented object never satisfies the root-child lookup. -/
theorem resolve_unparented_vs_root (d : Remote) (name : String) (fields : Option String)
    (hf : d.failure = none) (hne : name.data ≠ []) (hns : ∀ c ∈ name.data, c ≠ pathSep) :
    (∀ r, stat d name fields = .ok r → r.parents = none) ∧
    (∀ r, stat d ("/" ++ name) fields = .ok r →
      ∃ ps, r.parents = some ps ∧ ps.contains "root" = true) ∧
    (∀ r, r ∈ d.objects → r.parents ≠ none → ¬ stat d name fields = .ok r) ∧
    (∀ r, r.parents = none → ¬ stat d ("/" ++ name) fields = .ok r) := by
  have hsp1 := rsplit_single name hne hns
  have hsp2 := rsplit_rooted name hne hns
  have hne2 : name ≠ "" := by
    intro hc
    rw [hc] at hne
    exact hne rfl
  have hne3 : name ≠ "/" := by
    intro hc
    apply hns pathSep _ rfl
    rw [hc]
    decide
  have part1 : ∀ r, stat d name fields = .ok r → r.parents = none := by
    intro r hok
    have h1 := stat_ok_elim d name fields r _ hsp1 hok
    rw [statSingle_char d name none fields false hf hne3 hne2] at h1
    have hopt : optTruthy none = (none : Option String) := rfl
    rw [hopt] at h1
    cases hq : queryItemsL d.objects false name none with
    | nil => rw [hq] at h1; simp at h1
    | cons it l =>
      rw [hq] at h1
      simp at h1
      rw [← h1]
      exact queryItemsL_none_head d.objects false name it l hq
  have part2 : ∀ r, stat d ("/" ++ name) fields = .ok r →
      ∃ ps, r.parents = some ps ∧ ps.contains "root" = true := by
    intro r hok
    have h1 := stat_ok_elim d ("/" ++ name) fields r _ hsp2 hok
    rw [statSingle_char d name (some "root") fields false hf hne3 hne2] at h1
    have hopt : optTruthy (some "root") = some "root" := rfl
    rw [hopt] at h1
    cases hq : queryItemsL d.objects false name (some "root") with
    | nil => rw [hq] at h1; simp at h1
    | cons it l =>
      rw [hq] at h1
      simp at h1
      rw [← h1]
      exact queryMatch_parent false name "root" it
        (queryItemsL_some_head d.objects false name "root" it l hq)
  refine ⟨part1, part2, ?_, ?_⟩
  · intro r _ hpar hok
    exact hpar (part1 r hok)
  · intro r hpar hok
    obtain ⟨ps, hps, _⟩ := part2 r hok
    rw [hpar] at hps
    exact Option.noConfusion hps

/-- An unparented object named `a` (as a shared item would appear). -/
def wUnparented : ObjectRecord := { id := "u1", name := "a" }

/-- An object named `a` created under root. -/
def wRooted : ObjectRecord := { id := "r1", name := "a", parents := some ["root"] }

/-- A store holding both an unparented `a` and an `a` under root. -/
def wD1 : Remote := { root := wRoot, objects := [wUnparented, wRooted] }

/-- Witness for C1: with both objects present, `stat "a"` picks the
unparented one and `stat "/a"` the root child, and neither satisfies the
other lookup. -/
theorem resolve_unparented_vs_root_witness :
    stat wD1 "a" none = .ok wUnparented ∧ wUnparented.parents = none ∧
    stat wD1 "/a" none = .ok wRooted ∧
    ¬ stat wD1 "a" none = .ok wRooted ∧ ¬ stat wD1 "/a" none = .ok wUnparented := by
  refine ⟨by decide, rfl, by decide, ?_, ?_⟩
  · exact (resolve_unparented_vs_root wD1 "a" none rfl (by decide) (by decide)).2.2.1
      wRooted (by decide) (by decide)
  · exact (resolve_unparented_vs_root wD1 "a" none rfl (by decide) (by decide)).2.2.2
      wUnparented rfl

/-- A store holding only an unparented object named `a`. -/
def wD2 : Remote := { root := wRoot, objects := [wUnparented] }

/-- C2 counterexample: `stat "a//"` does not fail with NotFound — the
trailing-slash collapse turns `"a//"` into the unparented lookup of `"a"`,
which succeeds whenever an unparented `a` exists, so the final segment
name after normalization is `"a"`, not the empty string. -/
theorem resolve_trailing_slashes_ok : stat wD2 "a//" none = .ok wUnparented := by
  decide

/-- C2 (amended): resolution fails with NotFound (errno 2, tagged with the
original path) whenever the innermost name produced by path splitting is
the empty string — in particular `stat ""` fails with NotFound — while
`"a//"` is not such a case: it normalizes to the unparented lookup of
`"a"`. -/
theorem resolve_empty_leaf_notfound (d : Remote) (p : String) (fields : Option String)
    (sp : StatParams) (rest : List String)
    (hsp : rsplit_path p = (sp, rest)) (hname : sp.name = "") :
    stat d p fields = .error (.notFound 2 "No such file or directory" p) ∧
    rsplit_path "a//" = ({ name := "a", parent_id := none }, []) := by
  constructor
  · simp only [stat]
    rw [hsp]
    cases hr : rest.reverse with
    | nil =>
      simp only [statWalkR]
      rw [hname, statSingle_empty]
    | cons nxt rs =>
      simp only [statWalkR]
      rw [hname, statSingle_empty]
  · decide

/-- Witness for C2 (amended): the empty path splits to the empty name and
resolution fails with NotFound tagged `""`. -/
theorem resolve_empty_leaf_notfound_witness :
    stat wD2 "" none = .error (.notFound 2 "No such file or directory" "") ∧
    rsplit_path "a//" = ({ name := "a", parent_id := none }, []) :=
  resolve_empty_leaf_notfound wD2 "" none { name := "" } [] (by decide) rfl

/-- C3: a path of any positive number of separators normalizes to the
single separator, and resolving it returns the canonical root record by a
direct id lookup — the result is the store's root record regardless of
what the object list contains, so no name query is involved. -/
theorem resolve_sep_only_root (d : Remote) (fields : Option String) (n : Nat)
    (hn : 1 ≤ n) :
    normScan (List.replicate n pathSep) = [pathSep] ∧
    stat d (String.mk (List.replicate n pathSep)) fields = .ok d.root := by
  have h1 := normScan_seps n hn
  refine ⟨h1, ?_⟩
  simp only [stat, rsplit_path]
  rw [h1]
  have h2 : rsplitAuxF (([pathSep] : List Char).length + 1) [pathSep] [] =
      ({ name := "/", parent_id := none }, []) := by decide
  rw [h2]
  simp only [List.reverse_nil, statWalkR, statSingle_sep]

/-- Witness for C3 at `"///"`. -/
theorem resolve_sep_only_root_witness :
    normScan (List.replicate 3 pathSep) = [pathSep] ∧
    stat wD1 (String.mk (List.replicate 3 pathSep)) none = .ok wD1.root :=
  resolve_sep_only_root wD1 none 3 (by decide)

/-- C4: whenever the multi-hop walk of `stat` fails with NotFound — at an
intermediate hop or the final one — the error reaching the caller carries
the original caller-supplied path as its filename, never the failing
segment. -/
theorem stat_notfound_filename (d : Remote) (path : String) (fields : Option String)
    (e : Nat) (s fn : String)
    (h : stat d path fields = .error (.notFound e s fn)) : fn = path := by
  simp only [stat] at h
  cases hw : statWalkR d (rsplit_path path).1.name (rsplit_path path).1.parent_id
      (rsplit_path path).2.reverse fields with
  | ok r => rw [hw] at h; simp at h
  | error e2 =>
    rw [hw] at h
    cases e2 <;> simp at h
    case notFound a b c => exact h.2.2.symm

/-- Witness for C4: on a store without `a`, `stat "a/b"` fails at the
first hop but the error filename is the full path `"a/b"`. -/
theorem stat_notfound_filename_witness :
    ("a/b" : String) = "a/b" ∧
    stat wD2 "a/b" none = .error (.notFound 2 "No such file or directory" "a/b") :=
  ⟨stat_notfound_filename wD2 "a/b" none 2 "No such file or directory" "a/b" (by decide),
   by decide⟩

/-- C5: `move` and `copy` fail with `AlreadyExists` whenever an object
with the source's name already resolves under the destination folder —
the error is produced by the pre-check before any remote mutation request
is issued, the returned store is the unchanged input store, and the
mutation log is empty.  Moreover (second conjunct) the case where the
destination is one of the source's current parents is always such a
collision: the source object itself satisfies the pre-check query. -/
theorem move_copy_collision (d : Remote) (path dst_path : String)
    (fields : Option String) (src dst : ObjectRecord)
    (hs : stat d path none = .ok src) (hd : stat d dst_path none = .ok dst) :
    ((∃ r, statSingle d src.name (some dst.id) none false = .ok r) →
      move d path dst_path fields =
        (.error (mkExists none none
          (pathJoin dst_path (String.mk (splitPathChars path.data).2))), d, []) ∧
      copy d path dst_path fields =
        (.error (mkExists none none
          (pathJoin dst_path (String.mk (splitPathChars path.data).2))), d, [])) ∧
    (d.failure = none → src.name ≠ "" → dst.id ≠ "" → src ∈ d.objects →
      dst.id ∈ src.parents.getD [] →
      ∃ r, statSingle d src.name (some dst.id) none false = .ok r) := by
  constructor
  · rintro ⟨r, hc⟩
    constructor
    · simp only [move, hs, hd, hc]
    · simp only [copy, hs, hd, hc]
  · intro hf hn hid hmem hpar
    by_cases h1 : src.name = "/"
    · exact ⟨d.root, by rw [h1, statSingle_sep]⟩
    · simp only [statSingle_char d src.name (some dst.id) none false hf h1 hn]
      have hopt : optTruthy (some dst.id) = some dst.id := by
        simp only [optTruthy]
        rw [if_neg hid]
      rw [hopt]
      have hq : queryMatch false src.name (some dst.id) src = true := by
        simp [queryMatch, hpar]
      have hmem2 : src ∈ queryItemsL d.objects false src.name (some dst.id) := by
        simp only [queryItemsL]
        exact List.mem_filter.mpr ⟨hmem, hq⟩
      cases hql : queryItemsL d.objects false src.name (some dst.id) with
      | nil => rw [hql] at hmem2; exact absurd hmem2 (List.not_mem_nil src)
      | cons it l => exact ⟨it, rfl⟩

/-- A file named `f` created under root. -/
def wF : ObjectRecord := { id := "f1", name := "f", parents := some ["root"] }

/-- A store with one file `f` under root. -/
def wD5 : Remote := { root := wRoot, objects := [wF] }

/-- Witness for C5: moving (or copying) `/f` into its own folder `/` is
rejected as a same-name collision before any mutation, leaving the store
untouched. -/
theorem move_copy_collision_witness :
    move wD5 "/f" "/" none =
      (.error (mkExists none none
        (pathJoin "/" (String.mk (splitPathChars ("/f" : String).data).2))), wD5, []) ∧
    copy wD5 "/f" "/" none =
      (.error (mkExists none none
        (pathJoin "/" (String.mk (splitPathChars ("/f" : String).data).2))), wD5, []) := by
  have h := move_copy_collision wD5 "/f" "/" none wF wRoot (by decide) (by decide)
  exact h.1 (h.2 rfl (by decide) (by decide) (by decide) (by decide))


/-! Pagination. -/

theorem iterYields_append (a b : List IterEv) :
    iterYields (a ++ b) = iterYields a ++ iterYields b := by
  induction a with
  | nil => rfl
  | cons e t ih =>
    cases e with
    | fetch tok => simp [iterYields, ih]
    | yield r => simp [iterYields, ih]

theorem iterYields_map_yield (l : List ObjectRecord) :
    iterYields (l.map IterEv.yield) = l := by
  induction l with
  | nil => rfl
  | cons a t ih => simp only [List.map_cons, iterYields, ih]

theorem iterAux_yields : ∀ (pages : List (List ObjectRecord)) (tok : Nat),
    iterYields (iterAux pages tok) = pages.flatten := by
  intro pages
  induction pages with
  | nil => intro tok; rfl
  | cons pg rest ih =>
    intro tok
    cases rest with
    | nil =>
      show iterYields (IterEv.fetch tok :: pg.map IterEv.yield) = ([pg] : List (List ObjectRecord)).flatten
      simp only [iterYields, iterYields_map_yield]
      simp
    | cons pg2 r2 =>
      show iterYields (IterEv.fetch tok :: (pg.map IterEv.yield ++ iterAux (pg2 :: r2) (tok + 1))) = _
      simp only [iterYields, iterYields_append, iterYields_map_yield, ih (tok + 1)]
      simp [List.flatten_cons]

/-- C7: for a container whose listing spans any number of pages, the
`iter` loop produces the trace: fetch page 0, yield all of page 0, fetch
page 1 with the server-supplied token, yield all of page 1, and so on,
stopping right after the first response that carries no continuation
token; in particular the yielded records are exactly the concatenation of
all pages, each item exactly once, in page order. -/
theorem iter_pagination (pages : List (List ObjectRecord)) (hp : pages ≠ []) :
    iterEvents pages = (List.range pages.length).flatMap
      (fun i => IterEv.fetch i :: (pages.getD i []).map IterEv.yield) ∧
    iterYields (iterEvents pages) = pages.flatten := by
  constructor
  · have main : ∀ (ps : List (List ObjectRecord)) (tok : Nat), ps ≠ [] →
        iterAux ps tok = (List.range ps.length).flatMap
          (fun i => IterEv.fetch (tok + i) :: (ps.getD i []).map IterEv.yield) := by
      intro ps
      induction ps with
      | nil => intro tok h; exact absurd rfl h
      | cons pg rest ih =>
        intro tok _
        cases rest with
        | nil => simp [iterAux, List.range_succ]
        | cons pg2 r2 =>
          rw [show iterAux (pg :: pg2 :: r2) tok =
            IterEv.fetch tok :: pg.map IterEv.yield ++ iterAux (pg2 :: r2) (tok + 1) from rfl]
          rw [ih (tok + 1) (by simp)]
          rw [show (pg :: pg2 :: r2).length = (pg2 :: r2).length + 1 from rfl]
          rw [List.range_succ_eq_map]
          simp only [List.flatMap_cons, List.flatMap_map]
          simp [Nat.add_assoc, Nat.add_comm 1]
    have h0 := main pages 0 hp
    simpa using h0
  · exact iterAux_yields pages 0

/-- Witness for C7 on a two-page listing. -/
theorem iter_pagination_witness :
    iterEvents [[wUnparented, wRooted], [wF]] =
      (List.range 2).flatMap
        (fun i => IterEv.fetch i :: (([[wUnparented, wRooted], [wF]]).getD i []).map IterEv.yield) ∧
    iterYields (iterEvents [[wUnparented, wRooted], [wF]]) =
      ([[wUnparented, wRooted], [wF]] : List (List ObjectRecord)).flatten :=
  iter_pagination [[wUnparented, wRooted], [wF]] (by decide)

/-! Error mapping. -/

/-- C8: a transport failure with code 404 during single-segment resolution
maps to NotFound carrying the code as errno and the looked-up name as
filename; any other code is re-raised unchanged; a transport failure with
code 403 during delete maps to PermissionDenied carrying the remote
message and the caller-supplied path; any other code there is re-raised
unchanged. -/
theorem remote_error_mapping (d : Remote) (nm path : String) (pid fields : Option String)
    (code : Nat) (msg : String) :
    (d.failure = some (code, msg) → nm ≠ "/" → nm ≠ "" → code = 404 →
      statSingle d nm pid fields false =
        .error (.notFound 404 "No such file or directory" nm)) ∧
    (d.failure = some (code, msg) → nm ≠ "/" → nm ≠ "" → code ≠ 404 →
      statSingle d nm pid fields false = .error (.http code msg)) ∧
    (∀ st, stat d path none = .ok st → d.deleteFailure = some (code, msg) →
      code = 403 → msg ≠ "" →
      delete d path = (.error (.permission 403 msg path), d, [.deleteObj st.id])) ∧
    (∀ st, stat d path none = .ok st → d.deleteFailure = some (code, msg) →
      code ≠ 403 →
      delete d path = (.error (.http code msg), d, [.deleteObj st.id])) := by
  refine ⟨?_, ?_, ?_, ?_⟩
  · intro hf h1 h2 hc
    subst hc
    simp only [statSingle, Remote.listFiles, hf, if_neg h1, if_neg h2]
    rfl
  · intro hf h1 h2 hc
    simp only [statSingle, Remote.listFiles, hf, if_neg h1, if_neg h2]
    rw [if_neg hc]
  · intro st hst hdel hc hmsg
    subst hc
    simp only [delete, hst, hdel]
    simp only [mkPermission, orInt, orStr, if_neg hmsg]
    rfl
  · intro st hst hdel hc
    simp only [delete, hst, hdel]
    rw [if_neg hc]

/-- Store whose listing transport fails with 404. -/
def wD8a : Remote := { root := wRoot, objects := [], failure := some (404, "File not found: .") }

/-- Store whose listing transport fails with 500. -/
def wD8b : Remote := { root := wRoot, objects := [], failure := some (500, "boom") }

/-- Store whose delete transport fails with 403. -/
def wD8c : Remote :=
  { root := wRoot, objects := [], deleteFailure := some (403, "insufficient permissions") }

/-- Store whose delete transport fails with 500. -/
def wD8d : Remote := { root := wRoot, objects := [], deleteFailure := some (500, "boom") }

/-- Witness for C8: the four mappings at concrete stores (`delete "/"`
resolves the root without a listing call, then hits the delete failure). -/
theorem remote_error_mapping_witness :
    statSingle wD8a "x" none none false =
      .error (.notFound 404 "No such file or directory" "x") ∧
    statSingle wD8b "x" none none false = .error (.http 500 "boom") ∧
    delete wD8c "/" =
      (.error (.permission 403 "insufficient permissions" "/"), wD8c, [.deleteObj "root"]) ∧
    delete wD8d "/" = (.error (.http 500 "boom"), wD8d, [.deleteObj "root"]) := by
  refine ⟨?_, ?_, ?_, ?_⟩
  · exact (remote_error_mapping wD8a "x" "/" none none 404 "File not found: .").1
      rfl (by decide) (by decide) rfl
  · exact (remote_error_mapping wD8b "x" "/" none none 500 "boom").2.1
      rfl (by decide) (by decide) (by decide)
  · exact (remote_error_mapping wD8c "x" "/" none none 403 "insufficient permissions").2.2.1
      wRoot (by decide) rfl rfl (by decide)
  · exact (remote_error_mapping wD8d "x" "/" none none 500 "boom").2.2.2
      wRoot (by decide) rfl (by decide)

/-! Fields projection. -/

/-- The caller-requested field names, as the spec reads them: nothing when
the argument is absent (or the falsy empty string), otherwise the
comma-separated names. -/
def requestedFields : Option String → List String
  | none => []
  | some f => if f = "" then [] else splitComma f

/-- C9: for every caller-supplied fields argument (including the
absent/None case) the projection sent to the remote store is, as a set,
the union of the caller-requested names and the mandatory default set
containing id, kind, mimeType, name and parents; in particular every
default field is requested on every call. -/
theorem fields_projection (fields : Option String) (s : String) :
    (s ∈ build_fields_param fields ↔
      (s ∈ requestedFields fields ∨ s ∈ FIELDS_DEFAULTS)) ∧
    (∀ t ∈ FIELDS_DEFAULTS, t ∈ build_fields_param fields) := by
  have habsorb : ∀ (u : String),
      u ∈ ("id" :: FIELDS_DEFAULTS : List String) ↔
        (u ∈ ([] : List String) ∨ u ∈ FIELDS_DEFAULTS) := by
    intro u
    simp only [List.mem_cons, List.not_mem_nil, false_or]
    constructor
    · rintro (hu | hu)
      · rw [hu]; decide
      · exact hu
    · exact fun hu => Or.inr hu
  constructor
  · cases fields with
    | none =>
      have hb : build_fields_param none = "id" :: FIELDS_DEFAULTS := by decide
      have hr : requestedFields none = [] := rfl
      rw [hb, hr]
      exact habsorb s
    | some f =>
      by_cases hf : f = ""
      · subst hf
        have hb : build_fields_param (some "") = "id" :: FIELDS_DEFAULTS := by decide
        have hr : requestedFields (some "") = [] := by decide
        rw [hb, hr]
        exact habsorb s
      · have hb : build_fields_param (some f) = splitComma f ++ FIELDS_DEFAULTS := by
          simp only [build_fields_param, orStr, if_neg hf]
        have hr : requestedFields (some f) = splitComma f := by
          simp only [requestedFields, if_neg hf]
        rw [hb, hr]
        exact List.mem_append
  · intro t ht
    exact List.mem_append_right _ ht

/-! Unparented sources in rename and move. -/

/-- An unparented object named `s`. -/
def wS : ObjectRecord := { id := "s1", name := "s" }

/-- An object named `s` under root, colliding with a move of the shared
`s` to `/`. -/
def wColl : ObjectRecord := { id := "x1", name := "s", parents := some ["root"] }

/-- Store with an unparented `s` and a colliding `s` under root. -/
def wD10 : Remote := { root := wRoot, objects := [wS, wColl] }

/-- Store with only the unparented `s`. -/
def wD10b : Remote := { root := wRoot, objects := [wS] }

/-- C10 counterexample: with an unparented source, `move` does not always
raise the untyped KeyError — when an object with the source name already
resolves under the destination, the pre-check fires first and `move`
raises the typed AlreadyExists error instead. -/
theorem move_unparented_typed_error :
    move wD10 "s" "/" none = (.error (.fileExists 17 "File exists" "/s"), wD10, []) := by
  decide

/-- C10 (amended): if the object resolved as the source carries no
`parents` field, `rename` raises the untyped KeyError on
`src_stat['parents']` (before any typed check of its own), and `move`
raises the untyped KeyError provided the destination resolves and the
same-name pre-check found nothing — otherwise `move` fails earlier with
its typed errors. -/
theorem unparented_keyerror (d : Remote) (path dst_name dst_path : String)
    (fields : Option String) (src : ObjectRecord)
    (hsrc : stat d path none = .ok src) (hp : src.parents = none) :
    rename d path dst_name fields = (.error (.keyError "parents"), d, []) ∧
    (∀ dst e st f2, stat d dst_path none = .ok dst →
      statSingle d src.name (some dst.id) none false = .error (.notFound e st f2) →
      move d path dst_path fields = (.error (.keyError "parents"), d, [])) := by
  constructor
  · simp only [rename, hsrc, hp]
  · intro dst e st f2 hdst hpre
    simp only [move, hsrc, hdst, hpre, hp]

/-- Witness for C10 (amended): on a store holding only the unparented
`s`, both `rename` and `move` fail with the untyped KeyError. -/
theorem unparented_keyerror_witness :
    rename wD10b "s" "zz" none = (.error (.keyError "parents"), wD10b, []) ∧
    move wD10b "s" "/" none = (.error (.keyError "parents"), wD10b, []) := by
  have h := unparented_keyerror wD10b "s" "zz" "/" none wS (by decide) rfl
  exact ⟨h.1, h.2 wRoot 2 "No such file or directory" "s" (by decide) (by decide)⟩

end PyGDrive
